import Mathlib

/-!
Verification development for the DownFileorg automatic file organizer.

The Python sources are shallowly embedded: probabilities become `ℚ`,
Python dicts become insertion-ordered association lists
(`List (String × ℚ)` resp. `List (String × Int)`), fallible calls become
`Option`/`Except`, and the file system becomes an explicit list of names.
Each definition mirrors one function of the repository; the theorems at
the end of the file settle the specification claims against them.
-/

namespace DownFileOrg

/-! ### Python dict operations on insertion-ordered association lists

`dictMem`/`dictGet?`/`dictSet` model `k in d`, `d[k]` and `d[k] = v` on a
Python dict: assignment updates the value in place when the key is
present and appends at the end otherwise (Python dicts preserve
insertion order). -/

def dictMem (d : List (String × ℚ)) (k : String) : Bool :=
  d.any (fun kv => kv.1 == k)

def dictGet? (d : List (String × ℚ)) (k : String) : Option ℚ :=
  (d.find? (fun kv => kv.1 == k)).map (fun kv => kv.2)

def dictSet (d : List (String × ℚ)) (k : String) (v : ℚ) : List (String × ℚ) :=
  if dictMem d k then d.map (fun kv => if kv.1 == k then (k, v) else kv)
  else d ++ [(k, v)]

/-! ### Classifier model (random_forest_classifier.py)

`classes` is `label_encoder.classes_` of the shipped model: scikit-learn's
`LabelEncoder` sorts the training labels, whose set is fixed in
`RandomForestFileClassifier.__init__` (`self.categories`), so the raw
category axis is this sorted list of the 8 category names. -/

def classes : List String :=
  ["Apps", "Career", "Education", "Entertainment", "Finance", "Games", "Movies", "Others"]

/-- The `self.categories` dict from `RandomForestFileClassifier.__init__`. -/
def categoriesTable : List (String × String) :=
  [("Education", "Education and Finance"), ("Movies", "Movies"), ("Games", "Games"),
   ("Apps", "Apps"), ("Entertainment", "Entertainment"), ("Career", "Career"),
   ("Finance", "Education and Finance"), ("Others", "Others")]

/-- `RandomForestFileClassifier.get_folder_name`. -/
def get_folder_name (predicted_category : String) : String :=
  if predicted_category = "Education" ∨ predicted_category = "Finance" then
    "Education and Finance"
  else
    (((categoriesTable.find? (fun kv => kv.1 == predicted_category)).map
      (fun kv => kv.2)).getD predicted_category)

/-- The `prob_dict` construction of `RandomForestFileClassifier.predict`
(lines 313-324): iterate over the class axis in order; a `Finance` entry is
added onto the `Education` entry when one is already present (otherwise it
is stored under the key `Education`); every other class is stored under its
own name. -/
def mergeStep (d : List (String × ℚ)) (kv : String × ℚ) : List (String × ℚ) :=
  if kv.1 = "Finance" then
    if dictMem d "Education" then
      dictSet d "Education" ((dictGet? d "Education").getD 0 + kv.2)
    else
      dictSet d "Education" kv.2
  else
    dictSet d kv.1 kv.2

def mergeProbs (raw : List (String × ℚ)) : List (String × ℚ) :=
  raw.foldl mergeStep []

/-- `np.argmax`: index of the first occurrence of the maximum value
(`0` for the empty list, which never occurs in the program). -/
def argmaxIdx : List ℚ → Nat
  | [] => 0
  | [_] => 0
  | x :: y :: ys =>
    let j := argmaxIdx (y :: ys)
    if (y :: ys).getD j 0 > x then j + 1 else 0

/-- The dictionary returned by `RandomForestFileClassifier.predict`
(minus the filename, which is threaded separately by the callers). -/
structure PredResult where
  filename : String
  predicted_category : String
  folder_name : String
  confidence : ℚ
  all_probabilities : List (String × ℚ)
deriving DecidableEq, Repr

/-- Core of `RandomForestFileClassifier.predict` (lines 294-332), as a
function of the raw per-class probability vector `ps` returned by
`rf_model.predict_proba` (the model itself is the external collaborator).
`predicted_class_idx = np.argmax(probabilities)`; a raw top-1 of `Finance`
is renamed to `Education` with the raw `Education` probability as
confidence (falling back to the top-1 probability if `Education` were not
among the classes); otherwise the confidence is the raw top-1 probability.
The reported distribution is the Finance-into-Education merge. -/
def predictCore (filename : String) (ps : List ℚ) : PredResult :=
  let idx := argmaxIdx ps
  let cls := classes.getD idx ""
  let pc :=
    if cls = "Finance" then
      match classes.findIdx? (fun c => c == "Education") with
      | some eIdx => ("Education", ps.getD eIdx 0)
      | none => ("Education", ps.getD idx 0)
    else
      (cls, ps.getD idx 0)
  { filename := filename
    predicted_category := pc.1
    folder_name := get_folder_name pc.1
    confidence := pc.2
    all_probabilities := mergeProbs (classes.zip ps) }

/-! ### Enhanced wrapper (universal_classifier_cli.py, EnhancedRandomForestWrapper)

String helpers are defined on the character lists underlying `String`:
`lowerB` is Python `str.lower` (ASCII letters; `Char.toLower` lowercases
exactly the ASCII range), `endsWithB s t` is Python `s.endswith(t)`, and
`substrB n h` is the Python containment test `n in h`. -/

def lowerB (s : String) : String := String.mk (s.data.map Char.toLower)

def endsWithB (s suffix : String) : Bool := decide (suffix.data <:+ s.data)

def substrB (needle hay : String) : Bool := decide (needle.data <:+: hay.data)

/-- The `edu_indicators` list of `EnhancedRandomForestWrapper.predict`. -/
def edu_indicators : List String :=
  ["assignment", "homework", "notes", "lecture", "class", "unit",
   "chapter", "lesson", "tutorial", "exercise", "quiz", "test",
   "exam", "study", "course", "syllabus", "lab", "report",
   "math", "science", "biology", "chemistry", "physics",
   "computer", "programming", "calculus", "algebra"]

/-- The `finance_indicators` list of `EnhancedRandomForestWrapper.predict`. -/
def finance_indicators : List String :=
  ["tax", "invoice", "bill", "receipt", "statement", "bank",
   "salary", "payroll", "budget", "expense", "income",
   "investment", "loan", "mortgage", "insurance", "audit"]

/-- Stable insertion of one entry into a probability-descending list
(an entry is placed before the first strictly smaller value, after equal
ones seen earlier, matching the stability of Python `sorted`). -/
def insertByProbDesc (x : String × ℚ) : List (String × ℚ) → List (String × ℚ)
  | [] => [x]
  | y :: ys => if x.2 ≥ y.2 then x :: y :: ys else y :: insertByProbDesc x ys

/-- Python `sorted(items, key=lambda x: x[1], reverse=True)`. -/
def sortProbsDesc (l : List (String × ℚ)) : List (String × ℚ) :=
  l.foldr insertByProbDesc []

/-- `EnhancedRandomForestWrapper.predict` (lines 143-198) as a transformation
of the base prediction `result` (the `enhancement_applied` annotation string
is not modelled; the Python dict lookups `all_probabilities['Education']`
and `['Finance']`, which would raise `KeyError` on a missing key, are
modelled with default `0` — the theorems below only evaluate them on
branches where Python would find the key or not reach the lookup). -/
def enhancedPredict (filename : String) (size_mb : ℚ) (result : PredResult) : PredResult :=
  if endsWithB (lowerB filename) ".pdf" ∧ size_mb < 50 then
    match sortProbsDesc result.all_probabilities with
    | t1 :: t2 :: _ =>
      if ((t1.1 = "Education" ∧ t2.1 = "Finance") ∨
          (t1.1 = "Finance" ∧ t2.1 = "Education")) ∧ |t1.2 - t2.2| < 3/10 then
        let fnLower := lowerB filename
        let edu_score := (edu_indicators.filter (fun k => substrB k fnLower)).length
        let finance_score := (finance_indicators.filter (fun k => substrB k fnLower)).length
        if edu_score > finance_score then
          { result with
            predicted_category := "Education"
            confidence :=
              max ((dictGet? result.all_probabilities "Education").getD 0 + 1/5) (7/10) }
        else if finance_score > edu_score then
          { result with
            predicted_category := "Finance"
            confidence :=
              max ((dictGet? result.all_probabilities "Finance").getD 0 + 1/5) (7/10) }
        else if size_mb < 5 then
          if (dictGet? result.all_probabilities "Education").getD 0 > 3/20 then
            { result with
              predicted_category := "Education"
              confidence :=
                max ((dictGet? result.all_probabilities "Education").getD 0 + 3/20) (3/5) }
          else result
        else result
      else result
    | _ => result
  else result

/-! ### Conflict resolver
(auto_file_organizer.py `_organize_file` lines 162-169 and
file_classifier_gui_watchdog.py `_organize_file` lines 84-90)

Both copies split the desired destination name into `stem`/`ext` and run
`counter = 1; while target_path.exists(): target = f"{stem}_{counter}{ext}";
counter += 1`. The directory content is modelled as the list of names
`existing`; `str(counter)` is decimal rendering, i.e. `Nat.repr`. The
unbounded `while` loop is modelled with explicit fuel; the theorems show a
fuel of `existing.length + 1` always suffices (some candidate among the
first `existing.length + 1` is free), so the fueled function computes
exactly the value of the Python loop. -/

/-- Candidate number `k`: the original name for `k = 0`, then
`stem_k.ext`. -/
def candidateName (stem ext : String) : Nat → String
  | 0 => stem ++ ext
  | Nat.succ k => stem ++ "_" ++ Nat.repr (k + 1) ++ ext

/-- The conflict-resolution loop, trying candidates in increasing order
starting from index `start`, with explicit fuel. -/
def resolveNameAux (existing : List String) (stem ext : String) : Nat → Nat → String
  | 0, k => candidateName stem ext k
  | fuel + 1, k =>
    if candidateName stem ext k ∈ existing then
      resolveNameAux existing stem ext fuel (k + 1)
    else
      candidateName stem ext k

/-- Conflict resolution for a desired name `stem ++ ext` against the
directory content `existing`. -/
def resolveName (existing : List String) (stem ext : String) : String :=
  resolveNameAux existing stem ext (existing.length + 1) 0

/-- Decimal digits of a natural number, most significant first (the
mathematical specification of `Nat.repr`). -/
def decDigits (n : Nat) : List Char :=
  if _h : n < 10 then [Nat.digitChar n]
  else decDigits (n / 10) ++ [Nat.digitChar (n % 10)]
termination_by n
decreasing_by
  exact Nat.div_lt_self (by omega) (by omega)

/-! ### Folder resolver (auto_file_organizer.py `_get_or_create_folder`,
lines 105-140) -/

/-- Destination chosen by the folder resolver: a subdirectory of the
organization root, or the root itself (the fallback when creation
fails). -/
inductive FolderDest where
  | sub (name : String)
  | root
deriving DecidableEq, Repr

/-- `_get_or_create_folder`. `fsExists n` models the filesystem check
`(self.downloads_path / n).exists()`; `index` models `self.existing_folders`
in its iteration order; `mkdirOk` models whether `folder_path.mkdir`
succeeds. Returned are the destination, the updated index
(`self.existing_folders.add(folder_name)` runs only after a successful
creation) and a flag telling whether a directory was created; the `except`
branch returns the Downloads root, so the function is total and no
exception escapes. -/
def getOrCreateFolder (fsExists : String → Bool) (index : List String)
    (mkdirOk : Bool) (folder_name : String) : FolderDest × List String × Bool :=
  if fsExists folder_name then (.sub folder_name, index, false)
  else
    match index.find? (fun e => lowerB e == lowerB folder_name) with
    | some e => (.sub e, index, false)
    | none =>
      match index.find? (fun e =>
          substrB (lowerB folder_name) (lowerB e) ||
          substrB (lowerB e) (lowerB folder_name)) with
      | some e => (.sub e, index, false)
      | none =>
        if mkdirOk then (.sub folder_name, index ++ [folder_name], true)
        else (.root, index, false)

/-! ### Feature extraction
(random_forest_classifier.py `extract_features_from_file`, lines 179-276)

`os.path.basename` and `os.path.splitext` are modelled on the character
lists underlying the path string (posix separator); `os.path.getsize`
inside `try/except` is passed in as an `Option Nat` (`none` when it
raised, turned into size 0 exactly as the `except` branch does). ASCII
behaviour of `str.lower`, `str.isdigit` and `str.split` is modelled by the
corresponding `Char` predicates. -/

/-- `os.path.basename` for posix paths: everything after the last `/`. -/
def baseName (p : String) : String :=
  String.mk (p.data.foldl (fun acc c => if c = '/' then [] else acc ++ [c]) [])

/-- Index of the last `.` in a character list, if any. -/
def lastDotIdx : List Char → Option Nat
  | [] => none
  | c :: cs =>
    match lastDotIdx cs with
    | some j => some (j + 1)
    | none => if c = '.' then some 0 else none

/-- `os.path.splitext` on a basename: split at the last dot, except that a
name whose characters before that dot are all dots (such as `.bashrc`) has
no extension. -/
def splitExtChars (cs : List Char) : List Char × List Char :=
  match lastDotIdx cs with
  | none => (cs, [])
  | some j =>
    if (cs.take j).any (fun c => c != '.') then (cs.take j, cs.drop j)
    else (cs, [])

/-- The lower-cased filename stem (`os.path.splitext(filename)[0].lower()`). -/
def extractedStem (file_path : String) : String :=
  lowerB (String.mk (splitExtChars (baseName file_path).data).1)

/-- The lower-cased extension (`os.path.splitext(filename)[1].lower()`). -/
def extractedExt (file_path : String) : String :=
  lowerB (String.mk (splitExtChars (baseName file_path).data).2)

/-- The size bucket thresholds of `extract_features_from_file`. -/
def size_category (size_bytes : Nat) : Int :=
  if size_bytes ≤ 1024 then 0
  else if size_bytes ≤ 100000 then 1
  else if size_bytes ≤ 10000000 then 2
  else if size_bytes ≤ 100000000 then 3
  else 4

/-- `category_keywords` of `extract_features_from_file`. -/
def category_keywords : List (String × List String) :=
  [("education",
    ["assignment", "notes", "class", "syllabus", "exam", "lecture", "worksheet", "college",
     "study", "textbook", "tutorial", "course", "homework", "quiz", "test", "university",
     "school", "academic", "research", "thesis", "dissertation", "math", "science", "biology",
     "chemistry", "physics", "computer", "programming", "algorithm", "data", "statistics"]),
   ("movies",
    ["movie", "film", "trailer", "cinema", "hd", "bluray", "dvd", "4k", "action", "comedy",
     "drama", "horror", "thriller", "adventure", "fantasy", "scifi", "romance", "animation",
     "documentary", "imax", "extended", "directors", "cut", "unrated", "remastered"]),
   ("games",
    ["game", "gaming", "setup", "install", "launcher", "steam", "epic", "origin", "battle",
     "playstation", "xbox", "nintendo", "mod", "patch", "dlc", "expansion", "multiplayer",
     "online", "rpg", "fps", "strategy", "puzzle", "arcade", "simulation", "sports"]),
   ("apps",
    ["app", "application", "software", "program", "tool", "utility", "installer", "setup",
     "exe", "dmg", "pkg", "deb", "rpm", "snap", "flatpak", "portable", "professional",
     "enterprise", "business", "productivity", "editor", "browser", "client"]),
   ("entertainment",
    ["music", "song", "audio", "video", "entertainment", "comedy", "funny", "viral",
     "trending", "podcast", "stream", "live", "concert", "album", "playlist", "mix", "dance",
     "party", "show", "series", "episode", "channel", "youtube", "tiktok", "instagram"]),
   ("career",
    ["resume", "cv", "career", "job", "work", "professional", "interview", "application",
     "cover", "letter", "linkedin", "portfolio", "project", "skill", "certification",
     "training", "development", "management", "leadership", "performance", "review",
     "promotion", "salary", "negotiation"]),
   ("finance",
    ["finance", "financial", "money", "bank", "banking", "invoice", "bill", "receipt",
     "statement", "tax", "salary", "payroll", "budget", "expense", "income", "investment",
     "stock", "crypto", "currency", "loan", "mortgage", "insurance", "audit", "accounting"]),
   ("others",
    ["temp", "temporary", "cache", "data", "config", "system", "log", "backup", "archive",
     "database", "misc", "other", "unknown", "file", "document", "folder", "directory",
     "settings", "preferences", "metadata", "info", "readme", "license", "changelog"])]

/-- `category_extensions` of `extract_features_from_file`. -/
def category_extensions : List (String × List String) :=
  [("education",
    [".pdf", ".docx", ".pptx", ".txt", ".doc", ".ppt", ".rtf", ".tex", ".epub", ".bib"]),
   ("movies",
    [".mp4", ".mkv", ".avi", ".mov", ".wmv", ".flv", ".webm", ".m4v", ".mpg", ".mpeg"]),
   ("games",
    [".exe", ".zip", ".rar", ".7z", ".iso", ".msi", ".apk", ".dmg", ".pkg", ".deb"]),
   ("apps",
    [".exe", ".msi", ".dmg", ".pkg", ".deb", ".rpm", ".snap", ".flatpak", ".appimage",
     ".tar.gz"]),
   ("entertainment",
    [".mp3", ".wav", ".flac", ".aac", ".ogg", ".m4a", ".wma", ".mp4", ".webm", ".mkv"]),
   ("career", [".pdf", ".docx", ".doc", ".txt", ".rtf", ".odt"]),
   ("finance", [".pdf", ".xlsx", ".xls", ".csv", ".txt", ".docx"]),
   ("others",
    [".dat", ".bin", ".tmp", ".log", ".cfg", ".ini", ".xml", ".json", ".db", ".sqlite",
     ".bak", ".old"])]

/-- Python `s.count(c)` for a single character. -/
def countChar (c : Char) (s : String) : Int :=
  ((s.data.filter (fun x => x == c)).length : Int)

/-- Number of whitespace-separated words after replacing `_` and `-` by
spaces (`name.replace('_',' ').replace('-',' ').split()` length). -/
def countWordsAux : List Char → Bool → Nat
  | [], _ => 0
  | c :: cs, inWord =>
    if c.isWhitespace then countWordsAux cs false
    else (if inWord then 0 else 1) + countWordsAux cs true

def wordCount (s : String) : Nat :=
  countWordsAux (s.data.map (fun c => if c = '_' ∨ c = '-' then ' ' else c)) false

/-- The numeric entries of the `features` dict, in insertion order (the
string-valued `extension` entry is handled separately by the conformance
step, matching its separate encoding pass in the source). -/
def rawNumericFeatures (stem ext : String) (size_bytes : Nat) : List (String × Int) :=
  [("name_length", (stem.data.length : Int)),
   ("size_bytes", (size_bytes : Int)),
   ("size_category", size_category size_bytes),
   ("has_numbers", if stem.data.any Char.isDigit then 1 else 0),
   ("has_underscore", countChar '_' stem),
   ("has_dash", countChar '-' stem),
   ("word_count", (wordCount stem : Int))] ++
  category_keywords.map (fun ck =>
    ("keywords_" ++ ck.1, ((ck.2.filter (fun k => substrB k stem)).length : Int))) ++
  category_extensions.map (fun ce =>
    ("ext_match_" ++ ce.1, if ext ∈ ce.2 then 1 else 0))

def intDictGet? (d : List (String × Int)) (k : String) : Option Int :=
  (d.find? (fun kv => kv.1 == k)).map (fun kv => kv.2)

/-- `extract_features_from_file`: build the feature dict, then conform it
to the training schema: every training column is kept in training order
(`df = df[self.feature_names]` after filling missing columns with 0, which
also discards any column not in the schema), and the `extension` column is
mapped through `extension_mapping` with unseen extensions becoming `-1`
(`.map(...).fillna(-1)`). The function is total: a failed
`os.path.getsize` arrives as `none` and becomes size 0. -/
def extract_features_from_file (extension_mapping : List (String × Int))
    (feature_names : List String) (file_path : String) (sizeResult : Option Nat) :
    List (String × Int) :=
  let stem := extractedStem file_path
  let ext := extractedExt file_path
  let size_bytes := sizeResult.getD 0
  let raw := rawNumericFeatures stem ext size_bytes
  feature_names.map (fun col =>
    (col,
      if col = "extension" then (intDictGet? extension_mapping ext).getD (-1)
      else (intDictGet? raw col).getD 0))

/-! ### Model lifecycle (random_forest_classifier.py `load_model` lines
375-390 and `predict` lines 288-292; auto_file_organizer.py
`FileOrganizerHandler.__init__` lines 44-54) -/

structure ModelData where
  feature_names : List String
  extension_mapping : List (String × Int)
deriving DecidableEq, Repr

structure ClassifierState where
  is_trained : Bool
  feature_names : List String
  extension_mapping : List (String × Int)
deriving DecidableEq, Repr

/-- A fresh `RandomForestFileClassifier()`: nothing loaded. -/
def initialClassifier : ClassifierState :=
  { is_trained := false
    feature_names := []
    extension_mapping := [] }

/-- `load_model`: the external `joblib.load` outcome is passed in as
`loaded` (`none` when it raised). On success every field is replaced and
`is_trained` becomes true; on failure the exception is caught, an error
message is printed, and the method returns normally with the state
unchanged — it never re-raises, and `is_trained` stays false on a fresh
classifier. -/
def load_model (st : ClassifierState) (loaded : Option ModelData) : ClassifierState :=
  match loaded with
  | some md =>
    { is_trained := true
      feature_names := md.feature_names
      extension_mapping := md.extension_mapping }
  | none => st

/-- `predict` with its `is_trained` guard (lines 288-289): the not-ready
`ValueError` is raised before feature extraction and before the scorer
(`rf_model.predict_proba`, the external model, passed as `score`) is
consulted. -/
def predictChecked (st : ClassifierState) (score : List (String × Int) → List ℚ)
    (file_path : String) (sizeResult : Option Nat) : Except String PredResult :=
  if st.is_trained = false then
    Except.error "Model not trained. Call train() first or load_model()."
  else
    Except.ok (predictCore (baseName file_path)
      (score (extract_features_from_file st.extension_mapping st.feature_names
        file_path sizeResult)))

/-- The classifier-loading part of `FileOrganizerHandler.__init__`
(auto_file_organizer.py lines 44-54): a missing model file raises
`FileNotFoundError`, which the surrounding `except` re-raises, aborting
startup; an existing file goes through `load_model`, whose own failure is
only printed. -/
def handlerInit (modelFileExists : Bool) (loaded : Option ModelData) :
    Except String ClassifierState :=
  if modelFileExists then Except.ok (load_model initialClassifier loaded)
  else Except.error "Model file not found"

/-! ### Watchdog in-flight race (file_classifier_gui_watchdog.py
`on_created` lines 29-41 and `_process_file_delayed` lines 43-64)

For a single path delivered as two creation events, each delivery runs, on
its own thread, these atomic actions in order: the membership check
`if file_path in self.processing_files: return` (inside `on_created`),
then — only after the `time.sleep` in the spawned worker —
`processing_files.add(file_path)`, `self._organize_file(file_path)`, and
the `finally` discard. `RaceState` holds each worker's remaining program,
the shared `processing_files` membership bit for the path, and how many
times `_organize_file` has run; a schedule lists which worker takes the
next atomic step. -/

inductive WAct where
  | check
  | add
  | organize
  | remove
deriving DecidableEq, Repr

/-- The atomic actions one delivery executes, in program order. -/
def workerProgram : List WAct := [.check, .add, .organize, .remove]

structure RaceState where
  progA : List WAct
  progB : List WAct
  inflight : Bool
  organizeCount : Nat
deriving DecidableEq, Repr

def initRace : RaceState :=
  { progA := workerProgram
    progB := workerProgram
    inflight := false
    organizeCount := 0 }

/-- Effect of one atomic action on the shared state: new membership bit,
new organize count, and whether the worker keeps running (a `check` that
finds the path already in the set returns from `on_created`, dropping the
rest of that delivery). -/
def stepWorker (inflight : Bool) (cnt : Nat) : WAct → Bool × Nat × Bool
  | .check => (inflight, cnt, !inflight)
  | .add => (true, cnt, true)
  | .organize => (inflight, cnt + 1, true)
  | .remove => (false, cnt, true)

/-- One scheduler choice: `false` steps worker A, `true` steps worker B. -/
def raceStep (s : RaceState) (who : Bool) : RaceState :=
  if who then
    match s.progB with
    | [] => s
    | a :: rest =>
      let r := stepWorker s.inflight s.organizeCount a
      { s with
        progB := if r.2.2 then rest else []
        inflight := r.1
        organizeCount := r.2.1 }
  else
    match s.progA with
    | [] => s
    | a :: rest =>
      let r := stepWorker s.inflight s.organizeCount a
      { s with
        progA := if r.2.2 then rest else []
        inflight := r.1
        organizeCount := r.2.1 }

def runSchedule (sched : List Bool) (s : RaceState) : RaceState :=
  sched.foldl raceStep s

/-! ### Batch prediction (random_forest_classifier.py `predict_batch`,
lines 334-356) -/

/-- One entry of the `predict_batch` result list, mirroring the Python
dicts: a success entry copies the `predict` result and has no `error` key
(`errorMsg = none`); a failure entry has the basename, category `Others`,
confidence 0.0 and the error message, and carries no folder name or
distribution. -/
structure BatchEntry where
  filename : String
  predicted_category : String
  folder_name : Option String
  confidence : ℚ
  all_probabilities : Option (List (String × ℚ))
  errorMsg : Option String
deriving DecidableEq, Repr, Inhabited

/-- `predict_batch`: each path is tried independently; `predictOne` is the
per-file `self.predict` call with its possible exception as
`Except.error`. The loop appends one entry per path and catches every
exception, so the function is total. -/
def predict_batch (predictOne : String → Except String PredResult)
    (file_paths : List String) : List BatchEntry :=
  file_paths.map (fun p =>
    match predictOne p with
    | .ok r =>
      { filename := r.filename
        predicted_category := r.predicted_category
        folder_name := some r.folder_name
        confidence := r.confidence
        all_probabilities := some r.all_probabilities
        errorMsg := none }
    | .error e =>
      { filename := baseName p
        predicted_category := "Others"
        folder_name := none
        confidence := 0
        all_probabilities := none
        errorMsg := some e })

/-- Zipping the class axis with an 8-entry probability vector. -/
theorem classes_zip_eval (p0 p1 p2 p3 p4 p5 p6 p7 : ℚ) :
    classes.zip [p0, p1, p2, p3, p4, p5, p6, p7] =
      [("Apps", p0), ("Career", p1), ("Education", p2), ("Entertainment", p3),
       ("Finance", p4), ("Games", p5), ("Movies", p6), ("Others", p7)] := by
  rfl

/-- Evaluation of the merge loop on the fixed class axis with symbolic
probabilities: `Finance` is folded into `Education`, every other class is
kept, insertion order preserved. -/
theorem mergeProbs_eval (p0 p1 p2 p3 p4 p5 p6 p7 : ℚ) :
    mergeProbs
      [("Apps", p0), ("Career", p1), ("Education", p2), ("Entertainment", p3),
       ("Finance", p4), ("Games", p5), ("Movies", p6), ("Others", p7)] =
      [("Apps", p0), ("Career", p1), ("Education", p2 + p4), ("Entertainment", p3),
       ("Games", p5), ("Movies", p6), ("Others", p7)] := by
  rfl

/-- Index returned by `argmaxIdx` is within bounds for nonempty lists. -/
theorem argmaxIdx_lt_length : ∀ (l : List ℚ), l ≠ [] → argmaxIdx l < l.length
  | [], h => absurd rfl h
  | [_], _ => by simp [argmaxIdx]
  | x :: y :: ys, _ => by
    have h2 := argmaxIdx_lt_length (y :: ys) (by simp)
    simp only [argmaxIdx]
    split
    · exact Nat.succ_lt_succ h2
    · simp

/-- C3: for every raw per-class probability vector over the model's class
axis, the post-merge distribution reported by `predict` has the same total
sum as the raw one, its `Education` entry is the sum of the raw `Education`
and `Finance` probabilities, and every other category's entry is the raw
probability, unchanged. -/
theorem merged_distribution_sound (p0 p1 p2 p3 p4 p5 p6 p7 : ℚ) :
    ((mergeProbs (classes.zip [p0, p1, p2, p3, p4, p5, p6, p7])).map
        (fun kv => kv.2)).sum =
      (((classes.zip [p0, p1, p2, p3, p4, p5, p6, p7])).map (fun kv => kv.2)).sum ∧
    dictGet? (mergeProbs (classes.zip [p0, p1, p2, p3, p4, p5, p6, p7])) "Education" =
      some (p2 + p4) ∧
    dictGet? (mergeProbs (classes.zip [p0, p1, p2, p3, p4, p5, p6, p7])) "Apps" = some p0 ∧
    dictGet? (mergeProbs (classes.zip [p0, p1, p2, p3, p4, p5, p6, p7])) "Career" = some p1 ∧
    dictGet? (mergeProbs (classes.zip [p0, p1, p2, p3, p4, p5, p6, p7])) "Entertainment" =
      some p3 ∧
    dictGet? (mergeProbs (classes.zip [p0, p1, p2, p3, p4, p5, p6, p7])) "Games" = some p5 ∧
    dictGet? (mergeProbs (classes.zip [p0, p1, p2, p3, p4, p5, p6, p7])) "Movies" = some p6 ∧
    dictGet? (mergeProbs (classes.zip [p0, p1, p2, p3, p4, p5, p6, p7])) "Others" = some p7 := by
  rw [classes_zip_eval, mergeProbs_eval]
  refine ⟨?_, rfl, rfl, rfl, rfl, rfl, rfl, rfl⟩
  simp
  ring

/-- C1 counterexample: on the raw distribution with `Education = 0.42` and
`Finance = 0.40` (top-1 raw class `Education`), `predict` returns category
`Education` with confidence `0.42`, while the post-merge probability of the
returned category is `0.82`: the returned confidence is not the post-merge
probability, and not the sum of the raw Education and Finance
probabilities. -/
theorem predict_confidence_cex :
    (predictCore "tax_invoice_2024.pdf"
        [1/50, 1/50, 21/50, 1/25, 2/5, 1/25, 3/100, 3/100]).predicted_category =
      "Education" ∧
    (predictCore "tax_invoice_2024.pdf"
        [1/50, 1/50, 21/50, 1/25, 2/5, 1/25, 3/100, 3/100]).confidence = 21/50 ∧
    dictGet? (predictCore "tax_invoice_2024.pdf"
        [1/50, 1/50, 21/50, 1/25, 2/5, 1/25, 3/100, 3/100]).all_probabilities "Education" =
      some (41/50) ∧
    (predictCore "tax_invoice_2024.pdf"
        [1/50, 1/50, 21/50, 1/25, 2/5, 1/25, 3/100, 3/100]).confidence ≠ (41/50 : ℚ) := by
  have hm : argmaxIdx [1/50, 1/50, 21/50, 1/25, 2/5, 1/25, 3/100, 3/100] = 2 := by
    norm_num [argmaxIdx]
  refine ⟨?_, ?_, ?_, ?_⟩ <;>
    simp only [predictCore, hm] <;>
    simp [classes, classes_zip_eval, mergeProbs_eval, dictGet?, get_folder_name] <;>
    norm_num

/-- C1 amended: when the top-1 raw class is `Education` or `Finance`
(indices 2 and 4 of the class axis), `predict` returns category `Education`
with the raw `Education` probability as confidence (not the merged sum);
for every other top-1 raw class, the returned confidence equals the
post-merge probability of the returned category. -/
theorem predict_confidence_amended (fn : String) (p0 p1 p2 p3 p4 p5 p6 p7 : ℚ) :
    ((argmaxIdx [p0, p1, p2, p3, p4, p5, p6, p7] = 2 ∨
      argmaxIdx [p0, p1, p2, p3, p4, p5, p6, p7] = 4) →
      (predictCore fn [p0, p1, p2, p3, p4, p5, p6, p7]).predicted_category = "Education" ∧
      (predictCore fn [p0, p1, p2, p3, p4, p5, p6, p7]).confidence = p2) ∧
    (argmaxIdx [p0, p1, p2, p3, p4, p5, p6, p7] ≠ 2 →
     argmaxIdx [p0, p1, p2, p3, p4, p5, p6, p7] ≠ 4 →
      dictGet? (predictCore fn [p0, p1, p2, p3, p4, p5, p6, p7]).all_probabilities
          (predictCore fn [p0, p1, p2, p3, p4, p5, p6, p7]).predicted_category =
        some (predictCore fn [p0, p1, p2, p3, p4, p5, p6, p7]).confidence) := by
  have hlt : argmaxIdx [p0, p1, p2, p3, p4, p5, p6, p7] < 8 := by
    simpa using argmaxIdx_lt_length [p0, p1, p2, p3, p4, p5, p6, p7] (by simp)
  constructor
  · rintro (h | h) <;>
      simp [predictCore, h, classes, get_folder_name]
  · intro h2 h4
    have hcase : argmaxIdx [p0, p1, p2, p3, p4, p5, p6, p7] = 0 ∨
        argmaxIdx [p0, p1, p2, p3, p4, p5, p6, p7] = 1 ∨
        argmaxIdx [p0, p1, p2, p3, p4, p5, p6, p7] = 3 ∨
        argmaxIdx [p0, p1, p2, p3, p4, p5, p6, p7] = 5 ∨
        argmaxIdx [p0, p1, p2, p3, p4, p5, p6, p7] = 6 ∨
        argmaxIdx [p0, p1, p2, p3, p4, p5, p6, p7] = 7 := by omega
    rcases hcase with h | h | h | h | h | h <;>
      simp [predictCore, h, classes, classes_zip_eval, mergeProbs_eval, dictGet?]

/-- Witness for the amended C1 theorem at a concrete distribution whose
top-1 raw class is `Movies`. -/
theorem predict_confidence_amended_witness :
    dictGet? (predictCore "avengers_movie.mp4"
        [0, 0, 0, 0, 0, 0, 1, 0]).all_probabilities
      (predictCore "avengers_movie.mp4" [0, 0, 0, 0, 0, 0, 1, 0]).predicted_category =
      some (predictCore "avengers_movie.mp4" [0, 0, 0, 0, 0, 0, 1, 0]).confidence :=
  (predict_confidence_amended "avengers_movie.mp4" 0 0 0 0 0 0 1 0).2
    (by decide) (by decide)

/-- Membership in an insertion step comes from the inserted element or the
original list. -/
theorem mem_insertByProbDesc {x y : String × ℚ} {l : List (String × ℚ)}
    (h : y ∈ insertByProbDesc x l) : y = x ∨ y ∈ l := by
  induction l with
  | nil => simpa [insertByProbDesc] using h
  | cons z zs ih =>
    by_cases hc : x.2 ≥ z.2
    · rw [insertByProbDesc, if_pos hc] at h
      rcases List.mem_cons.1 h with h1 | h1
      · exact Or.inl h1
      · exact Or.inr h1
    · rw [insertByProbDesc, if_neg hc] at h
      rcases List.mem_cons.1 h with h1 | h1
      · exact Or.inr (by simp [h1])
      · rcases ih h1 with h2 | h2
        · exact Or.inl h2
        · exact Or.inr (List.mem_cons_of_mem _ h2)

/-- The stable descending sort does not invent entries. -/
theorem mem_sortProbsDesc {y : String × ℚ} {l : List (String × ℚ)}
    (h : y ∈ sortProbsDesc l) : y ∈ l := by
  induction l with
  | nil => simp [sortProbsDesc] at h
  | cons z zs ih =>
    simp only [sortProbsDesc, List.foldr] at h ih
    rcases mem_insertByProbDesc h with h1 | h1
    · simp [h1]
    · exact List.mem_cons_of_mem _ (ih h1)

/-- Python dict assignment with a key different from `s` never introduces
the key `s`. -/
theorem dictSet_keeps_ne (d : List (String × ℚ)) (k : String) (v : ℚ) (s : String)
    (hd : ∀ kv ∈ d, kv.1 ≠ s) (hk : k ≠ s) :
    ∀ kv ∈ dictSet d k v, kv.1 ≠ s := by
  intro kv hkv
  unfold dictSet at hkv
  split at hkv
  · obtain ⟨a, ha, rfl⟩ := List.mem_map.1 hkv
    by_cases hak : a.1 == k
    · simpa [hak] using hk
    · simpa [hak] using hd a ha
  · rcases List.mem_append.1 hkv with h | h
    · exact hd _ h
    · simp only [List.mem_singleton] at h
      subst h
      exact hk

/-- The post-merge distribution of `predict` never contains a `Finance`
key: the merge loop only ever stores keys named `Education` or the names of
non-`Finance` classes. -/
theorem mergeProbs_no_finance_key (raw : List (String × ℚ)) :
    ∀ kv ∈ mergeProbs raw, kv.1 ≠ "Finance" := by
  suffices h : ∀ (d : List (String × ℚ)), (∀ kv ∈ d, kv.1 ≠ "Finance") →
      ∀ kv ∈ raw.foldl mergeStep d, kv.1 ≠ "Finance" by
    exact h [] (by simp)
  induction raw with
  | nil => intro d hd; simpa using hd
  | cons a rest ih =>
    intro d hd
    simp only [List.foldl_cons]
    refine ih (mergeStep d a) ?_
    unfold mergeStep
    split
    · split
      · exact dictSet_keeps_ne _ _ _ _ hd (by simp)
      · exact dictSet_keeps_ne _ _ _ _ hd (by simp)
    · exact dictSet_keeps_ne _ _ _ _ hd (by assumption)

/-- The keyword override of the enhanced wrapper is dead code against the
real base classifier: whenever the incoming distribution has no `Finance`
key (which `predict` guarantees for every raw distribution), the wrapper
returns the base result unchanged, for every filename and size. -/
theorem enhancedPredict_no_finance_id (filename : String) (size_mb : ℚ) (r : PredResult)
    (h : ∀ kv ∈ r.all_probabilities, kv.1 ≠ "Finance") :
    enhancedPredict filename size_mb r = r := by
  unfold enhancedPredict
  split
  · cases hs : sortProbsDesc r.all_probabilities with
    | nil => rfl
    | cons t1 rest =>
      cases rest with
      | nil => rfl
      | cons t2 rest2 =>
        have ht1 : t1 ∈ sortProbsDesc r.all_probabilities := by simp [hs]
        have ht2 : t2 ∈ sortProbsDesc r.all_probabilities := by simp [hs]
        have hn1 : t1.1 ≠ "Finance" := h t1 (mem_sortProbsDesc ht1)
        have hn2 : t2.1 ≠ "Finance" := h t2 (mem_sortProbsDesc ht2)
        have hcond : ¬(((t1.1 = "Education" ∧ t2.1 = "Finance") ∨
            (t1.1 = "Finance" ∧ t2.1 = "Education")) ∧ |t1.2 - t2.2| < 3/10) := by
          rintro ⟨h1 | h2, -⟩
          · exact hn2 h1.2
          · exact hn1 h2.1
        exact if_neg hcond
  · rfl

/-- C2 evaluation at the end-to-end scenario claimed by the spec: a 50 KB
file named `tax_invoice_2024.pdf` (50 KB is 25/512 MB) with raw
probabilities `Education = 0.42` and `Finance = 0.40` (gap 0.02 < 0.3,
filename containing the finance keywords `tax` and `invoice` and no
education keyword). The claim expects category `Finance` with confidence at
least 0.7; the code instead returns the unmodified base prediction,
category `Education` with confidence 0.42: the wrapper inspects the
post-merge distribution, which never contains a `Finance` key, so the
override condition can never hold. -/
theorem enhanced_override_cex :
    (enhancedPredict "tax_invoice_2024.pdf" (25/512)
        (predictCore "tax_invoice_2024.pdf"
          [1/20, 1/25, 21/50, 3/100, 2/5, 1/50, 1/50, 1/50])).predicted_category =
      "Education" ∧
    (enhancedPredict "tax_invoice_2024.pdf" (25/512)
        (predictCore "tax_invoice_2024.pdf"
          [1/20, 1/25, 21/50, 3/100, 2/5, 1/50, 1/50, 1/50])).predicted_category ≠
      "Finance" ∧
    (enhancedPredict "tax_invoice_2024.pdf" (25/512)
        (predictCore "tax_invoice_2024.pdf"
          [1/20, 1/25, 21/50, 3/100, 2/5, 1/50, 1/50, 1/50])).confidence = 21/50 ∧
    (enhancedPredict "tax_invoice_2024.pdf" (25/512)
        (predictCore "tax_invoice_2024.pdf"
          [1/20, 1/25, 21/50, 3/100, 2/5, 1/50, 1/50, 1/50])).confidence < 7/10 := by
  have hid : enhancedPredict "tax_invoice_2024.pdf" (25/512)
      (predictCore "tax_invoice_2024.pdf"
        [1/20, 1/25, 21/50, 3/100, 2/5, 1/50, 1/50, 1/50]) =
      predictCore "tax_invoice_2024.pdf"
        [1/20, 1/25, 21/50, 3/100, 2/5, 1/50, 1/50, 1/50] :=
    enhancedPredict_no_finance_id _ _ _
      (fun kv hkv => mergeProbs_no_finance_key _ kv hkv)
  have hm : argmaxIdx [1/20, 1/25, 21/50, 3/100, 2/5, 1/50, 1/50, 1/50] = 2 := by
    norm_num [argmaxIdx]
  rw [hid]
  refine ⟨?_, ?_, ?_, ?_⟩ <;>
    simp only [predictCore, hm] <;>
    simp [classes, classes_zip_eval, mergeProbs_eval, dictGet?, get_folder_name] <;>
    norm_num

theorem decDigits_lt (n : Nat) (h : n < 10) : decDigits n = [Nat.digitChar n] := by
  rw [decDigits]
  exact dif_pos h

theorem decDigits_ge (n : Nat) (h : ¬n < 10) :
    decDigits n = decDigits (n / 10) ++ [Nat.digitChar (n % 10)] := by
  conv_lhs => rw [decDigits]
  exact dif_neg h

theorem decDigits_ne_nil (n : Nat) : decDigits n ≠ [] := by
  by_cases h : n < 10
  · rw [decDigits_lt n h]
    simp
  · rw [decDigits_ge n h]
    simp

theorem toDigitsCore_eq_decDigits :
    ∀ (fuel n : Nat) (acc : List Char), n < fuel →
      Nat.toDigitsCore 10 fuel n acc = decDigits n ++ acc := by
  intro fuel
  induction fuel with
  | zero => omega
  | succ f ih =>
    intro n acc hlt
    simp only [Nat.toDigitsCore]
    by_cases h10 : n / 10 = 0
    · have hn : n < 10 := by
        rwa [Nat.div_eq_zero_iff (by omega)] at h10
      rw [if_pos h10, decDigits_lt n hn, Nat.mod_eq_of_lt hn]
      rfl
    · have hge : 10 ≤ n := by
        by_contra hc
        exact h10 (by omega)
      have hsmall : n / 10 < n := Nat.div_lt_self (by omega) (by omega)
      have hrec : n / 10 < f := by omega
      rw [if_neg h10, ih (n / 10) _ hrec, decDigits_ge n (by omega)]
      simp

theorem repr_data_eq (n : Nat) : (Nat.repr n).data = decDigits n := by
  show (Nat.toDigits 10 n).asString.data = decDigits n
  unfold Nat.toDigits
  rw [toDigitsCore_eq_decDigits (n + 1) n [] (Nat.lt_succ_self n)]
  simp [List.asString]

theorem repr_data_len_pos (n : Nat) : 0 < (Nat.repr n).data.length := by
  rw [repr_data_eq]
  exact List.length_pos.2 (decDigits_ne_nil n)

theorem digitChar_inj_lt : ∀ a < 10, ∀ b < 10, Nat.digitChar a = Nat.digitChar b → a = b := by
  decide

/-- Decimal digit strings determine the number. -/
theorem decDigits_inj (m : Nat) : ∀ n, decDigits m = decDigits n → m = n := by
  induction m using Nat.strong_induction_on with
  | _ m ih =>
    intro n h
    by_cases hm : m < 10 <;> by_cases hn : n < 10
    · rw [decDigits_lt m hm, decDigits_lt n hn] at h
      exact digitChar_inj_lt m hm n hn (by simpa using h)
    · exfalso
      rw [decDigits_lt m hm, decDigits_ge n hn] at h
      have hlen := congrArg List.length h
      simp [decDigits_ne_nil] at hlen
    · exfalso
      rw [decDigits_ge m hm, decDigits_lt n hn] at h
      have hlen := congrArg List.length h
      simp [decDigits_ne_nil] at hlen
    · rw [decDigits_ge m hm, decDigits_ge n hn] at h
      obtain ⟨h1, h2⟩ := List.append_inj' h (by simp)
      have hdiv : m / 10 = n / 10 :=
        ih (m / 10) (Nat.div_lt_self (by omega) (by omega)) (n / 10) h1
      have hmod : m % 10 = n % 10 :=
        digitChar_inj_lt (m % 10) (Nat.mod_lt _ (by omega)) (n % 10) (Nat.mod_lt _ (by omega))
          (by simpa using h2)
      omega

/-- Distinct candidate indices give distinct candidate names. -/
theorem candidateName_inj (stem ext : String) :
    Function.Injective (candidateName stem ext) := by
  intro a b h
  have hd := congrArg String.data h
  have hu : ("_" : String).data.length = 1 := by decide
  match a, b with
  | 0, 0 => rfl
  | 0, Nat.succ k =>
    exfalso
    simp only [candidateName, String.data_append] at hd
    have hpos := repr_data_len_pos (k + 1)
    have hlen := congrArg List.length hd
    simp only [List.length_append] at hlen
    omega
  | Nat.succ k, 0 =>
    exfalso
    simp only [candidateName, String.data_append] at hd
    have hpos := repr_data_len_pos (k + 1)
    have hlen := congrArg List.length hd
    simp only [List.length_append] at hlen
    omega
  | Nat.succ j, Nat.succ k =>
    simp only [candidateName, String.data_append] at hd
    have h3 := List.append_cancel_left (List.append_cancel_right hd)
    rw [repr_data_eq, repr_data_eq] at h3
    have := decDigits_inj (j + 1) (k + 1) h3
    omega

/-- Pigeonhole: among the first `existing.length + 1` candidates at least
one is not in `existing`. -/
theorem exists_free_candidate (existing : List String) (stem ext : String) :
    ∃ j ≤ existing.length, candidateName stem ext j ∉ existing := by
  by_contra hc
  push_neg at hc
  have hnd : ((List.range (existing.length + 1)).map (candidateName stem ext)).Nodup :=
    (List.nodup_range _).map (candidateName_inj stem ext)
  have hsub : ((List.range (existing.length + 1)).map (candidateName stem ext)) ⊆ existing := by
    intro s hs
    obtain ⟨j, hj, rfl⟩ := List.mem_map.1 hs
    have hj2 : j ≤ existing.length := by
      have := List.mem_range.1 hj
      omega
    exact hc j hj2
  have hle := (hnd.subperm hsub).length_le
  simp at hle

/-- The fueled loop returns the first free candidate at or after `start`,
provided one exists within `fuel` steps. -/
theorem resolveNameAux_spec (existing : List String) (stem ext : String) :
    ∀ (fuel start : Nat),
      (∃ j, j ≤ fuel ∧ candidateName stem ext (start + j) ∉ existing) →
      ∃ j, j ≤ fuel ∧
        resolveNameAux existing stem ext fuel start = candidateName stem ext (start + j) ∧
        candidateName stem ext (start + j) ∉ existing ∧
        ∀ i, i < j → candidateName stem ext (start + i) ∈ existing := by
  intro fuel
  induction fuel with
  | zero =>
    intro start hex
    obtain ⟨j, hj, hfree⟩ := hex
    have hj0 : j = 0 := by omega
    subst hj0
    exact ⟨0, Nat.le_refl 0, rfl, hfree, by omega⟩
  | succ f ih =>
    intro start hex
    by_cases hmem : candidateName stem ext start ∈ existing
    · obtain ⟨j, hj, hfree⟩ := hex
      have hjpos : j ≠ 0 := by
        intro h0
        subst h0
        exact hfree hmem
      obtain ⟨j2, rfl⟩ := Nat.exists_eq_succ_of_ne_zero hjpos
      have hex2 : ∃ i, i ≤ f ∧ candidateName stem ext (start + 1 + i) ∉ existing :=
        ⟨j2, by omega, by
          rw [show start + 1 + j2 = start + (j2 + 1) from by omega]
          exact hfree⟩
      obtain ⟨j3, hj3, heq, hfree3, hmin3⟩ := ih (start + 1) hex2
      refine ⟨j3 + 1, by omega, ?_, ?_, ?_⟩
      · rw [resolveNameAux, if_pos hmem, heq,
          show start + 1 + j3 = start + (j3 + 1) from by omega]
      · rw [show start + (j3 + 1) = start + 1 + j3 from by omega]
        exact hfree3
      · intro i hi
        cases i with
        | zero => exact hmem
        | succ i2 =>
          rw [show start + (i2 + 1) = start + 1 + i2 from by omega]
          exact hmin3 i2 (by omega)
    · exact ⟨0, by omega, by rw [resolveNameAux, if_neg hmem]; rfl, hmem, by omega⟩

/-- C4: the conflict resolver never returns a name already present in the
destination directory, and the name it returns is the first free entry of
the candidate sequence original, `_1`, `_2`, ... in increasing order; in a
directory already containing `report.pdf` and `report_1.pdf`, resolving a
new `report.pdf` yields `report_2.pdf`. -/
theorem resolveName_spec (existing : List String) (stem ext : String) :
    (resolveName existing stem ext ∉ existing ∧
     ∃ j, resolveName existing stem ext = candidateName stem ext j ∧
       candidateName stem ext j ∉ existing ∧
       ∀ i, i < j → candidateName stem ext i ∈ existing) ∧
    resolveName ["report.pdf", "report_1.pdf"] "report" ".pdf" = "report_2.pdf" := by
  constructor
  · obtain ⟨j0, hj0, hfree0⟩ := exists_free_candidate existing stem ext
    obtain ⟨j, hj, heq, hfree, hmin⟩ :=
      resolveNameAux_spec existing stem ext (existing.length + 1) 0
        ⟨j0, by omega, by simpa using hfree0⟩
    rw [Nat.zero_add] at heq hfree
    refine ⟨?_, j, ?_, hfree, ?_⟩
    · rw [resolveName, heq]
      exact hfree
    · rw [resolveName, heq]
    · intro i hi
      have := hmin i hi
      rwa [Nat.zero_add] at this
  · decide

/-- Witness for the conflict-resolver theorem at a concrete directory:
the resolved name is fresh. -/
theorem resolveName_spec_witness :
    resolveName ["notes.txt"] "notes" ".txt" ∉ (["notes.txt"] : List String) :=
  (resolveName_spec ["notes.txt"] "notes" ".txt").1.1

/-- C5: folder resolution applies, in strict order, the exact existence
check, the case-insensitive index match, and the bidirectional
case-insensitive substring match, reusing the first hit without creating
anything, and creates a new directory only when no rule matches; when the
root already has an `Education` folder and the predicted folder name is
`Education and Finance`, the existing `Education` folder is reused and no
new folder is created. -/
theorem getOrCreateFolder_order (fsExists : String → Bool) (index : List String)
    (mkdirOk : Bool) (name : String) :
    (fsExists name = true →
      getOrCreateFolder fsExists index mkdirOk name = (.sub name, index, false)) ∧
    (fsExists name = false →
      ∀ e, index.find? (fun e => lowerB e == lowerB name) = some e →
        getOrCreateFolder fsExists index mkdirOk name = (.sub e, index, false)) ∧
    (fsExists name = false →
      index.find? (fun e => lowerB e == lowerB name) = none →
      ∀ e, index.find? (fun e =>
          substrB (lowerB name) (lowerB e) || substrB (lowerB e) (lowerB name)) = some e →
        getOrCreateFolder fsExists index mkdirOk name = (.sub e, index, false)) ∧
    (fsExists name = false →
      index.find? (fun e => lowerB e == lowerB name) = none →
      index.find? (fun e =>
          substrB (lowerB name) (lowerB e) || substrB (lowerB e) (lowerB name)) = none →
      mkdirOk = true →
        getOrCreateFolder fsExists index mkdirOk name =
          (.sub name, index ++ [name], true)) ∧
    getOrCreateFolder (fun n => n == "Education") ["Education"] true
        "Education and Finance" = (.sub "Education", ["Education"], false) := by
  refine ⟨?_, ?_, ?_, ?_, ?_⟩
  · intro h
    simp [getOrCreateFolder, h]
  · intro h e he
    simp [getOrCreateFolder, h, he]
  · intro h h1 e he
    simp [getOrCreateFolder, h, h1, he]
  · intro h h1 h2 hmk
    simp [getOrCreateFolder, h, h1, h2, hmk]
  · decide

/-- Witness for the strict-order theorem: an exact filesystem hit is reused
as-is. -/
theorem getOrCreateFolder_order_witness :
    getOrCreateFolder (fun _ => true) [] true "Movies" = (.sub "Movies", [], false) :=
  (getOrCreateFolder_order (fun _ => true) [] true "Movies").1 rfl

/-- C6: when no reuse rule matches and the directory creation fails, the
folder resolver returns the organization root itself as the destination;
the function is total, so the failure is not propagated as an exception and
the run continues. -/
theorem getOrCreateFolder_failure_fallback (fsExists : String → Bool)
    (index : List String) (name : String)
    (h : fsExists name = false)
    (h1 : index.find? (fun e => lowerB e == lowerB name) = none)
    (h2 : index.find? (fun e =>
        substrB (lowerB name) (lowerB e) || substrB (lowerB e) (lowerB name)) = none) :
    getOrCreateFolder fsExists index false name = (.root, index, false) := by
  simp [getOrCreateFolder, h, h1, h2]

/-- Witness for the creation-failure fallback at a concrete state: empty
index, a filesystem with nothing in it, creation failing. -/
theorem getOrCreateFolder_failure_fallback_witness :
    getOrCreateFolder (fun _ => false) [] false "Apps" = (.root, [], false) :=
  getOrCreateFolder_failure_fallback (fun _ => false) [] "Apps" rfl rfl rfl

/-- Looking up a column of a schema-shaped association list built by
mapping over the schema. -/
theorem intDictGet?_map_self (g : String → Int) (names : List String) (col : String)
    (h : col ∈ names) :
    intDictGet? (names.map (fun c => (c, g c))) col = some (g col) := by
  induction names with
  | nil => simp at h
  | cons c cs ih =>
    by_cases hc : c = col
    · subst hc
      simp [intDictGet?]
    · rcases List.mem_cons.1 h with h1 | h1
      · exact absurd h1.symm hc
      · simpa [intDictGet?, hc] using ih h1

theorem intDictGet?_eq_none (d : List (String × Int)) (col : String)
    (h : col ∉ d.map Prod.fst) : intDictGet? d col = none := by
  rw [intDictGet?, List.find?_eq_none.2, Option.map_none']
  intro kv hkv
  simp only [beq_iff_eq]
  intro hq
  exact h (List.mem_map.2 ⟨kv, hkv, hq⟩)

/-- C7: for every extension table, schema, file path and size outcome, the
extracted vector's column names equal the schema exactly and in order (so
columns the extraction produced that are not in the schema are discarded);
a schema column the extraction does not produce is filled with 0; when the
schema has an `extension` column and the file's extension is not in the
extension table, the column is the sentinel `-1`. Extraction is total, so
it never raises. -/
theorem extract_features_schema_stable (extension_mapping : List (String × Int))
    (feature_names : List String) (file_path : String) (sizeResult : Option Nat) :
    ((extract_features_from_file extension_mapping feature_names file_path
        sizeResult).map Prod.fst = feature_names) ∧
    (∀ col ∈ feature_names, col ≠ "extension" →
      col ∉ (rawNumericFeatures (extractedStem file_path) (extractedExt file_path)
          (sizeResult.getD 0)).map Prod.fst →
      intDictGet? (extract_features_from_file extension_mapping feature_names file_path
        sizeResult) col = some 0) ∧
    ("extension" ∈ feature_names →
      intDictGet? extension_mapping (extractedExt file_path) = none →
      intDictGet? (extract_features_from_file extension_mapping feature_names file_path
        sizeResult) "extension" = some (-1)) := by
  refine ⟨?_, ?_, ?_⟩
  · rw [extract_features_from_file]
    induction feature_names with
    | nil => rfl
    | cons c cs ih => simpa using ih
  · intro col hcol hne hnp
    rw [extract_features_from_file]
    rw [intDictGet?_map_self _ feature_names col hcol]
    rw [if_neg hne, intDictGet?_eq_none _ _ hnp]
    rfl
  · intro hcol hnone
    rw [extract_features_from_file]
    rw [intDictGet?_map_self _ feature_names _ hcol]
    rw [if_pos rfl, hnone]
    rfl

/-- Witness for the schema-stability theorem: a schema with an unknown
column `bogus_col`, an empty extension table (so `.xyz` is unseen), a path
with a directory component and an upper-case stem, and a failed size
probe. -/
theorem extract_features_schema_stable_witness :
    ((extract_features_from_file [] ["extension", "name_length", "bogus_col"]
        "dir/Weird_File.xyz" none).map Prod.fst =
      ["extension", "name_length", "bogus_col"]) ∧
    intDictGet? (extract_features_from_file [] ["extension", "name_length", "bogus_col"]
      "dir/Weird_File.xyz" none) "bogus_col" = some 0 ∧
    intDictGet? (extract_features_from_file [] ["extension", "name_length", "bogus_col"]
      "dir/Weird_File.xyz" none) "extension" = some (-1) :=
  ⟨(extract_features_schema_stable [] ["extension", "name_length", "bogus_col"]
      "dir/Weird_File.xyz" none).1,
   (extract_features_schema_stable [] ["extension", "name_length", "bogus_col"]
      "dir/Weird_File.xyz" none).2.1 "bogus_col" (by decide) (by decide) (by decide),
   (extract_features_schema_stable [] ["extension", "name_length", "bogus_col"]
      "dir/Weird_File.xyz" none).2.2 (by decide) (by decide)⟩

/-- C8 counterexample: when the model file exists but fails to load
(corrupt file, version mismatch), startup completes normally with an
untrained classifier — the not-ready condition does not surface at
startup, contradicting the claim that an unloaded model fails fast at
startup. -/
theorem model_not_ready_cex :
    handlerInit true none = Except.ok initialClassifier ∧
    (load_model initialClassifier none).is_trained = false :=
  ⟨rfl, rfl⟩

/-- C8 amended: a missing model file does abort startup; and whenever the
classifier is untrained (never loaded, or a load that failed and was
swallowed), every `predict` call raises the distinguishable not-ready
`ValueError` before any feature vector is scored — the outcome is the same
error, identical for every scorer, so no vector is ever submitted. A
failed `load_model` itself, however, returns normally (the exception is
printed, not propagated), so the unloaded case surfaces per prediction
call, not at startup. -/
theorem model_not_ready_amended (st : ClassifierState)
    (score1 score2 : List (String × Int) → List ℚ) (p : String) (sz : Option Nat)
    (h : st.is_trained = false) :
    handlerInit false none = Except.error "Model file not found" ∧
    predictChecked st score1 p sz =
      Except.error "Model not trained. Call train() first or load_model()." ∧
    predictChecked st score1 p sz = predictChecked st score2 p sz := by
  refine ⟨rfl, ?_, ?_⟩ <;> simp [predictChecked, h]

/-- Witness for the amended C8 theorem: a fresh classifier rejects a
prediction before scoring. -/
theorem model_not_ready_amended_witness :
    predictChecked initialClassifier (fun _ => []) "a.pdf" none =
      Except.error "Model not trained. Call train() first or load_model()." :=
  (model_not_ready_amended initialClassifier (fun _ => []) (fun _ => [1]) "a.pdf" none
    rfl).2.1

/-- C9 counterexample schedule: membership test and insertion are separate
atomic steps (the test runs in `on_created`, the insertion only after the
worker's sleep), so when both deliveries pass the check before either
inserts, `_organize_file` runs twice for the same path — not exactly once
as claimed. Both workers run to completion. A serialized schedule, where
the second check happens after the first insertion, does drop the second
delivery and organizes once: the failure needs the interleaving, which the
claimed atomic check-and-set would exclude. -/
theorem inflight_race_cex :
    (runSchedule [false, true, false, false, false, true, true, true]
        initRace).organizeCount = 2 ∧
    (runSchedule [false, true, false, false, false, true, true, true]
        initRace).progA = [] ∧
    (runSchedule [false, true, false, false, false, true, true, true]
        initRace).progB = [] ∧
    (runSchedule [false, false, false, true, false] initRace).organizeCount = 1 ∧
    (runSchedule [false, false, false, true, false] initRace).progB = [] := by
  decide

/-- C10: `predict_batch` returns exactly one result per input path and
never raises (it is a total function); the i-th result depends only on the
i-th path's own prediction outcome, so a failing path yields the
`Others`/confidence-0 record carrying its error message while every other
path is still processed normally. -/
theorem predict_batch_spec (predictOne : String → Except String PredResult)
    (file_paths : List String) :
    (predict_batch predictOne file_paths).length = file_paths.length ∧
    (∀ i, i < file_paths.length →
      (predict_batch predictOne file_paths).getD i default =
        match predictOne (file_paths.getD i "") with
        | .ok r =>
          { filename := r.filename
            predicted_category := r.predicted_category
            folder_name := some r.folder_name
            confidence := r.confidence
            all_probabilities := some r.all_probabilities
            errorMsg := none }
        | .error e =>
          { filename := baseName (file_paths.getD i "")
            predicted_category := "Others"
            folder_name := none
            confidence := 0
            all_probabilities := none
            errorMsg := some e }) := by
  constructor
  · simp [predict_batch]
  · intro i hi
    induction file_paths generalizing i with
    | nil => simp at hi
    | cons p ps ih =>
      cases i with
      | zero =>
        cases hp : predictOne p <;> simp [predict_batch, hp]
      | succ j =>
        simpa [predict_batch] using ih j (by simpa using hi)

/-- Witness for the batch theorem: a two-path batch whose second path
fails with message `boom` still yields two entries, the second being the
`Others` error record. -/
theorem predict_batch_spec_witness :
    (predict_batch (fun p => if p = "bad" then Except.error "boom"
        else Except.ok (predictCore (baseName p) [1]))
      ["good.pdf", "bad"]).getD 1 default =
      { filename := "bad"
        predicted_category := "Others"
        folder_name := none
        confidence := 0
        all_probabilities := none
        errorMsg := some "boom" } := by
  have h := (predict_batch_spec (fun p => if p = "bad" then Except.error "boom"
      else Except.ok (predictCore (baseName p) [1])) ["good.pdf", "bad"]).2 1 (by decide)
  simpa using h

end DownFileOrg
